import Mathlib

/-!
Verification of the RecSQL repository against its natural-language specification.

The development shallowly embeds the parts of `recsql` that the claims are
about:

* `recsql/convert.py` — type inference (`besttype`) and the `Autoconverter`
  field converter;
* `recsql/rest_table.py` — the reST text-table parser (`Table2array`) and its
  own local copies of `besttype` / `Autoconverter`;
* `recsql/sqlarray.py` — the query execution path `SQLarray.sql`, the bounded
  query cache (`Ringbuffer` / `KRingbuffer`), `SQLarray.selection` and the
  constructor prefix of `SQLarray.__init__`.

The backing SQLite engine and numpy are external collaborators: the embedding
treats a statement execution as an oracle returning (affected row count,
column names, fetched rows), and `numpy.rec.fromrecords` as an oracle that may
fail.  Python strings are modelled as Lean `String`s (lists of characters;
byte-level behaviour coincides on the ASCII data the repository handles), the
numeric tower as `ℤ`/`ℚ` (IEEE specials such as `float("inf")` are not
representable and do not arise in the claims' inputs).
-/

set_option maxHeartbeats 2000000

namespace RecSQL

/-! ### Python string primitives -/

/-- Python whitespace as used by `str.strip()` / `str.split()` / `\s`. -/
def isPySpace (c : Char) : Bool :=
  c == ' ' || c == '\t' || c == '\n' || c == '\r' || c == '\x0b' || c == '\x0c'

/-- Python `str.strip()`. -/
def pyStrip (s : String) : String :=
  String.mk (((s.data.dropWhile isPySpace).reverse.dropWhile isPySpace).reverse)

/-- Python `str.rstrip()`. -/
def pyRstrip (s : String) : String :=
  String.mk ((s.data.reverse.dropWhile isPySpace).reverse)

/-- Python `str.upper()` (ASCII; matches `Char.toUpper` on the repository's data). -/
def pyUpper (s : String) : String :=
  String.mk (s.data.map Char.toUpper)

def pyWordsAux : List Char → List Char → List String
  | [], acc => if acc.isEmpty then [] else [String.mk acc.reverse]
  | c :: rest, acc =>
    if isPySpace c then
      if acc.isEmpty then pyWordsAux rest []
      else String.mk acc.reverse :: pyWordsAux rest []
    else pyWordsAux rest (c :: acc)

/-- Python `str.split()` with no argument: split on runs of whitespace,
dropping empty pieces (`''.split()` is `[]`). -/
def pyWords (s : String) : List String := pyWordsAux s.data []

def hasSubAux (needle : List Char) : List Char → Bool
  | [] => needle.isEmpty
  | c :: rest => needle.isPrefixOf (c :: rest) || hasSubAux needle rest

/-- `strHasSub hay needle` is Python `hay.find(needle) > -1` (also `needle in hay`). -/
def strHasSub (hay needle : String) : Bool := hasSubAux needle.data hay.data

def pyReplaceAux (pat rep : List Char) : Nat → List Char → List Char
  | 0, l => l
  | fuel + 1, l =>
    match l with
    | [] => []
    | c :: rest =>
      if !pat.isEmpty && pat.isPrefixOf l then
        rep ++ pyReplaceAux pat rep fuel (l.drop pat.length)
      else
        c :: pyReplaceAux pat rep fuel rest

/-- Python `s.replace(pat, rep)`: replace all non-overlapping occurrences,
left to right (the repository only uses non-empty patterns). -/
def pyReplace (s pat rep : String) : String :=
  String.mk (pyReplaceAux pat.data rep.data s.data.length s.data)

/-! ### Python values

Field conversion produces either a scalar or (after decomposition) a flat
tuple of scalars; pieces of a split are never split again, so tuples do not
nest. -/

inductive PyScalar where
  | int (n : ℤ)
  | float (q : ℚ)
  | str (s : String)
  | bool (b : Bool)
  | pynone
  deriving DecidableEq, Repr

inductive PyVal where
  | scalar (v : PyScalar)
  | tuple (vs : List PyScalar)
  deriving DecidableEq, Repr

/-! ### Python numeric literal parsing (`int(x)`, `float(x)`) -/

def digitsToNat (ds : List Char) : Nat :=
  ds.foldl (fun n c => 10 * n + (c.toNat - '0'.toNat)) 0

/-- Python 2 `int(x)` on an already-stripped string: optional sign followed by
one or more decimal digits. -/
def parseIntCore (cs : List Char) : Option ℤ :=
  match cs with
  | [] => none
  | c :: rest =>
    let signed : ℤ × List Char :=
      if c = '+' then (1, rest) else if c = '-' then (-1, rest) else (1, cs)
    if !signed.2.isEmpty && signed.2.all Char.isDigit then
      some (signed.1 * (digitsToNat signed.2 : ℤ))
    else none

/-- Python `int(x)` (which strips surrounding whitespace itself). -/
def pyInt (s : String) : Option ℤ := parseIntCore (pyStrip s).data

/-- Unsigned part of a Python float literal: `digits [. digits] [exp]` or
`. digits [exp]`, with at least one mantissa digit. -/
def parseFloatMag (cs : List Char) : Option ℚ :=
  let ip := cs.takeWhile Char.isDigit
  let r1 := cs.dropWhile Char.isDigit
  let hasDot : Bool := r1.head? == some '.'
  let fp := if hasDot then (r1.drop 1).takeWhile Char.isDigit else []
  let r2 := if hasDot then (r1.drop 1).dropWhile Char.isDigit else r1
  if ip.isEmpty && fp.isEmpty then none
  else
    let mant : ℚ := (digitsToNat (ip ++ fp) : ℚ) / ((10 : ℚ) ^ fp.length)
    match r2 with
    | [] => some mant
    | e :: t =>
      if e = 'e' || e = 'E' then
        match parseIntCore t with
        | some k => some (mant * (10 : ℚ) ^ k)
        | none => none
      else none

def parseFloatCore (cs : List Char) : Option ℚ :=
  match cs with
  | [] => none
  | c :: rest =>
    if c = '+' then parseFloatMag rest
    else if c = '-' then (parseFloatMag rest).map (fun q => -q)
    else parseFloatMag cs

/-- Python `float(x)` over the rationals (strips surrounding whitespace;
IEEE rounding and `inf`/`nan` literals are outside the model and outside the
claims' inputs). -/
def pyFloat (s : String) : Option ℚ := parseFloatCore (pyStrip s).data

/-- The local `percent` helper of `convert.besttype`: a trailing `%` divides
the float value of the rest by 100, anything else is a `ValueError`. -/
def percentConv (s : String) : Option ℚ :=
  if s.data.getLast? == some '%' then
    (pyFloat (String.mk s.data.dropLast)).map (fun q => q / 100)
  else none

/-! ### `recsql.convert.besttype` -/

def isQuoteChar (c : Char) : Bool := c == '"' || c == '\''

/-- The anchored match of `convert.besttype`'s regular expression
`(?P<quote>['"])(?P<value>.*)(?P=quote)$`: same quote character at both ends,
length at least 2, and no newline in between (`.` does not match `\n`). -/
def quotedSame (cs : List Char) : Bool :=
  match cs with
  | [] => false
  | c :: rest =>
    isQuoteChar c && !rest.isEmpty && rest.getLast? == some c
      && (rest.dropLast.all (· != '\n'))

/-- The anchored match of `rest_table.besttype`'s regular expression
`['"](?P<value>.*)["']$`: a quote character at each end, *not necessarily the
same one*. -/
def quotedAny (cs : List Char) : Bool :=
  match cs with
  | [] => false
  | c :: rest =>
    isQuoteChar c && !rest.isEmpty
      && (match rest.getLast? with | some d => isQuoteChar d | none => false)
      && (rest.dropLast.all (· != '\n'))

/-- `recsql.convert.besttype` (the `percentify` argument is accepted but never
consulted by the source, so it does not appear here): strip, then strip a
matching pair of quotes, else try `int`, `float`, percent notation and finally
fall back to the (unicode) string itself. -/
def besttype (s : String) : PyScalar :=
  let x := pyStrip s
  if quotedSame x.data then .str (String.mk ((x.data.drop 1).dropLast))
  else
    match pyInt x with
    | some n => .int n
    | none =>
      match pyFloat x with
      | some q => .float q
      | none =>
        match percentConv x with
        | some q => .float q
        | none => .str x

/-- `recsql.rest_table.besttype`: strip, then strip any pair of quote
characters (mixed ends allowed by its regex), else try `int`, `float`, and
finally `str`. -/
def besttypeR (s : String) : PyScalar :=
  let x := pyStrip s
  if quotedAny x.data then .str (String.mk ((x.data.drop 1).dropLast))
  else
    match pyInt x with
    | some n => .int n
    | none =>
      match pyFloat x with
      | some q => .float q
      | none => .str x

/-! ### The field converters (`Autoconverter` in both modules) -/

/-- The hard-coded default sentinel mapping (used when `mapping=None`).  Its
keys are all strings, so in Python the lookup `mapping[x]` can only hit when
the inferred value is a string. -/
def defaultMapping : List (String × PyScalar) :=
  [("---", .pynone), ("None", .pynone), ("none", .pynone), ("", .pynone),
   ("True", .bool true), ("x", .bool true), ("X", .bool true), ("yes", .bool true),
   ("False", .bool false), ("no", .bool false), ("-", .bool false)]

/-- `convert.Autoconverter._convert_singlet` with the default mapping:
`besttype`, then sentinel lookup, `KeyError` passes the value through. -/
def convertSinglet (s : String) : PyScalar :=
  let x := besttype s
  match x with
  | .str t =>
    match defaultMapping.lookup t with
    | some v => v
    | none => x
  | _ => x

/-- The `sep` attribute: `False` (no decomposition), `None` (split on runs of
whitespace; `sep=True` is normalised to this by `__init__`), or an explicit
separator string. -/
inductive SepMode where
  | noSplit
  | whitespace
  | sepStr (sep : String)
  deriving DecidableEq, Repr

def splitSepAux (sep : List Char) : Nat → List Char → List Char → List String
  | 0, cur, _ => [String.mk cur.reverse]
  | _ + 1, cur, [] => [String.mk cur.reverse]
  | fuel + 1, cur, c :: rest =>
    if sep.isPrefixOf (c :: rest) then
      String.mk cur.reverse :: splitSepAux sep fuel [] ((c :: rest).drop sep.length)
    else
      splitSepAux sep fuel (c :: cur) rest

/-- Python `field.split(self.sep)` for the two splitting modes. -/
def pySplit (mode : SepMode) (s : String) : List String :=
  match mode with
  | .noSplit => [s]
  | .whitespace => pyWords s
  | .sepStr sep =>
    if sep.isEmpty then [s]
    else splitSepAux sep.data (s.data.length + 1) [] s.data

/-- `convert.Autoconverter._convert_fancy`: no splitting when `sep is False`;
otherwise split, convert each piece with `_convert_singlet`, and unwrap
0- and 1-element results. -/
def convertFancy (sep : SepMode) (field : String) : PyVal :=
  match sep with
  | .noSplit => .scalar (convertSinglet field)
  | _ =>
    let pieces := (pySplit sep field).map convertSinglet
    match pieces with
    | [] => .scalar (.str "")
    | [p] => .scalar p
    | _ => .tuple pieces

/-- The `mode` argument of `convert.Autoconverter`. -/
inductive ConvMode where
  | unicodeMode
  | simple
  | singlet
  | fancy
  deriving DecidableEq, Repr

/-- `recsql.convert.Autoconverter` with the default mapping.  The Python class
rebinds its `convert` attribute whenever the `active` property is assigned;
the embedding realises the same dispatch at call time. -/
structure Autoconverter where
  mode : ConvMode
  active : Bool
  sep : SepMode
  deriving DecidableEq, Repr

/-- `Autoconverter.convert`: the selected `_convertors[mode]` entry when
active, and the identity (`lambda x: x`) when inactive. -/
def Autoconverter.convert (a : Autoconverter) (x : String) : PyVal :=
  if a.active then
    match a.mode with
    | .unicodeMode => .scalar (.str x)
    | .simple => .scalar (besttype x)
    | .singlet => .scalar (convertSinglet x)
    | .fancy => convertFancy a.sep x
  else
    .scalar (.str x)

/-- `rest_table.Autoconverter._convert_singlet` (uses the module-local
`besttype`). -/
def convertSingletR (s : String) : PyScalar :=
  let x := besttypeR s
  match x with
  | .str t =>
    match defaultMapping.lookup t with
    | some v => v
    | none => x
  | _ => x

/-- `rest_table.Autoconverter._convert`. -/
def convertR (sep : SepMode) (field : String) : PyVal :=
  match sep with
  | .noSplit => .scalar (convertSingletR field)
  | _ =>
    let pieces := (pySplit sep field).map convertSingletR
    match pieces with
    | [] => .scalar (.str "")
    | [p] => .scalar p
    | _ => .tuple pieces

/-- `recsql.rest_table.Autoconverter` with the default mapping. -/
structure RTAutoconverter where
  active : Bool
  sep : SepMode
  deriving DecidableEq, Repr

/-- `rest_table.Autoconverter.convert`: `self._convert` when active, and the
module-local `besttype` — *not* the identity — when inactive. -/
def RTAutoconverter.convert (a : RTAutoconverter) (x : String) : PyVal :=
  if a.active then convertR a.sep x else .scalar (besttypeR x)

/-! ### The reST table parser (`recsql.rest_table.Table2array`)

The `TABLE` regular expression of the source is anchored with `^`/`$` in
MULTILINE mode and glues its components with `[\n]+`, so it is embedded as a
line-oriented scanner: each named group of the pattern becomes one check on a
line, `[\n]+` becomes "skip fully empty lines", and the lazy `(?P<data>.*?)`
region becomes "all lines up to the first following rule line". -/

/-- `\w` of the source's patterns (compiled without `re.UNICODE`). -/
def isWordChar (c : Char) : Bool :=
  ('a' ≤ c && c ≤ 'z') || ('A' ≤ c && c ≤ 'Z') || c.isDigit || c == '_'

def isSpaceTab (c : Char) : Bool := c == ' ' || c == '\t'

/-- The header component `^[ \t]*Table(\[(?P<name>\w*)\])?:\s*(?P<title>[^\n]*)[ \t]*$`
applied to one line; yields the `name` and `title` groups. -/
def parseTableLine (line : String) : Option (Option String × String) :=
  let rest := line.data.dropWhile isSpaceTab
  if ("Table".data).isPrefixOf rest then
    match rest.drop 5 with
    | '[' :: t =>
      let nm := t.takeWhile isWordChar
      (match t.drop nm.length with
       | ']' :: ':' :: t3 => some (some (String.mk nm), String.mk (t3.dropWhile isPySpace))
       | _ => none)
    | ':' :: t3 => some (none, String.mk (t3.dropWhile isPySpace))
    | _ => none
  else none

/-- A rule line `^[ \t]*==+[ \t=]+[ \t]*$`: after leading blanks, two `=`s,
at least three characters in total, everything drawn from `=`, space, tab. -/
def isRuleLine (line : String) : Bool :=
  let t := line.data.dropWhile isSpaceTab
  (match t with | '=' :: '=' :: _ :: _ => true | _ => false)
    && t.all (fun c => c == '=' || c == ' ' || c == '\t')

/-- The field-name line `^(?P<fields>[\w\t ]+?)$`. -/
def isFieldsLine (line : String) : Bool :=
  !line.data.isEmpty && line.data.all (fun c => isWordChar c || c == ' ' || c == '\t')

/-- `EMPTY_ROW`, i.e. `^[-\s]*$`: only whitespace and dashes. -/
def isEmptyRow (line : String) : Bool :=
  line.data.all (fun c => c == '-' || isPySpace c)

structure TableGroups where
  name : Option String
  title : String
  toprule : String
  fields : String
  midrule : String
  dataLines : List String
  botrule : String
  deriving DecidableEq, Repr

/-- Skip the extra newlines a `[\n]+` may absorb (i.e. fully empty lines). -/
def dropBlank (ls : List String) : List String := ls.dropWhile String.isEmpty

/-- Attempt to match the whole `TABLE` pattern with the header on the first
of the given lines. -/
def matchTableAt (ls : List String) : Option TableGroups :=
  match ls with
  | [] => none
  | l0 :: rest =>
    match parseTableLine l0 with
    | none => none
    | some (nm, title) =>
      match dropBlank rest with
      | [] => none
      | top :: r1 =>
        if isRuleLine top then
          match dropBlank r1 with
          | [] => none
          | fl :: r2 =>
            if isFieldsLine fl then
              match dropBlank r2 with
              | [] => none
              | mid :: r3 =>
                if isRuleLine mid then
                  match r3.dropWhile (fun l => !isRuleLine l) with
                  | bot :: _ =>
                    some ⟨nm, title, top, fl, mid, r3.takeWhile (fun l => !isRuleLine l), bot⟩
                  | [] => none
                else none
            else none
        else none

/-- `TABLE.search`: first line position at which the pattern matches. -/
def TABLEsearch : List String → Option TableGroups
  | [] => none
  | l :: rest =>
    match matchTableAt (l :: rest) with
    | some g => some g
    | none => TABLEsearch rest

def splitLinesAux : List Char → List Char → List String
  | [], acc => [String.mk acc.reverse]
  | c :: rest, acc =>
    if c = '\n' then String.mk acc.reverse :: splitLinesAux rest []
    else splitLinesAux rest (c :: acc)

/-- Split a multi-line string into its lines (`s.split('\n')`). -/
def splitLines (s : String) : List String := splitLinesAux s.data []

inductive ParseErr where
  | noTable
  | ruleMismatch
  | countMismatch
  deriving DecidableEq, Repr

/-- State of the character scan in `Table2array.parse_fields`. -/
structure ScanState where
  fields : List (Nat × Nat)
  isField : Bool
  startField : Nat
  deriving Repr

/-- One iteration of the `for c in xrange(len_rule)` loop of `parse_fields`
(two successive `if`s, exactly as in the source). -/
def fieldScanStep (rule : List Char) (len : Nat) (st : ScanState) (c : Nat) : ScanState :=
  let char := rule.getD c ' '
  let st1 :=
    if !st.isField && char == '=' then { st with startField := c, isField := true } else st
  if st1.isField && (char == ' ' || c == len - 1) then
    { st1 with fields := st1.fields ++ [(st1.startField, c)], isField := false }
  else st1

/-- The (start, end) column pairs `parse_fields` extracts from the rule line. -/
def parseFieldsScan (rule : String) : List (Nat × Nat) :=
  let len := rule.data.length
  let init : ScanState := ⟨[], rule.data.head? == some '=', 0⟩
  ((List.range len).foldl (fieldScanStep rule.data len) init).fields

structure ParsedFields where
  names : List String
  fields : List (Nat × Nat)
  deriving DecidableEq, Repr

/-- `Table2array.parse_fields`: the three rule lines must agree up to trailing
whitespace, and the number of `=`-runs must equal the number of field names. -/
def Table2arrayParseFields (g : TableGroups) : Except ParseErr ParsedFields :=
  let rule := pyRstrip g.toprule
  if rule = pyRstrip g.midrule ∧ rule = pyRstrip g.botrule then
    let names := pyWords g.fields
    let nfields := (pyWords rule).length
    if nfields = names.length then
      .ok ⟨names, parseFieldsScan rule⟩
    else .error .countMismatch
  else .error .ruleMismatch

/-- Python slice `line[a:b]` (clamping at the end of the line). -/
def pySlice (cs : List Char) (a b : Nat) : String := String.mk ((cs.drop a).take (b - a))

structure ParsedTable where
  tablename : Option String
  names : List String
  records : List (List PyVal)
  deriving DecidableEq, Repr

/-- `Table2array.__init__` (the `TABLE.search`) followed by
`Table2array.parse`: locate the table, extract the field columns, and slice
and convert every non-empty data line.  `conv` is the bound
`self.autoconvert` conversion function. -/
def Table2arrayParse (conv : String → PyVal) (s : String) : Except ParseErr ParsedTable :=
  match TABLEsearch (splitLines s) with
  | none => .error .noTable
  | some g =>
    match Table2arrayParseFields g with
    | .error e => .error e
    | .ok pf =>
      let rows := (g.dataLines.filter (fun l => !isEmptyRow l)).map
        (fun line => pf.fields.map (fun se => conv (pySlice line.data se.1 (se.2 + 1))))
      .ok ⟨g.name, pf.names, rows⟩

/-- The conversion function a default `Table2array(string)` uses:
`Autoconverter(active=False, mapping=None, sep=None).convert`, which is the
module-local `besttype`. -/
def Table2arrayDefaultConvert : String → PyVal :=
  (RTAutoconverter.mk false .whitespace).convert

/-- The literal laureates example table (module docstring of
`recsql.rest_table`, reproduced verbatim in the specification). -/
def laureatesText : String :=
  String.intercalate "\n"
    ["Table[laureates]: Physics Nobel prize statistics.",
     "=============  ==========  =========",
     "name           age         year",
     "=============  ==========  =========",
     "A. Einstein    42          1921",
     "P. Dirac       31          1933",
     "R. P. Feynman  47          1965",
     "=============  ==========  ========="]

/-! ### MD5 (`hashlib.md5`, used by `SQLarray.selection` for derived names)

A direct implementation of RFC 1321 over `Nat` with explicit reduction mod
`2^32`, operating on the UTF-8 bytes of the input string (the repository
hashes Python byte strings; its SQL texts are ASCII, where the encodings
agree). -/

namespace MD5

def M32 : Nat := 4294967296

def K : List Nat :=
  [0xd76aa478, 0xe8c7b756, 0x242070db, 0xc1bdceee,
   0xf57c0faf, 0x4787c62a, 0xa8304613, 0xfd469501,
   0x698098d8, 0x8b44f7af, 0xffff5bb1, 0x895cd7be,
   0x6b901122, 0xfd987193, 0xa679438e, 0x49b40821,
   0xf61e2562, 0xc040b340, 0x265e5a51, 0xe9b6c7aa,
   0xd62f105d, 0x02441453, 0xd8a1e681, 0xe7d3fbc8,
   0x21e1cde6, 0xc33707d6, 0xf4d50d87, 0x455a14ed,
   0xa9e3e905, 0xfcefa3f8, 0x676f02d9, 0x8d2a4c8a,
   0xfffa3942, 0x8771f681, 0x6d9d6122, 0xfde5380c,
   0xa4beea44, 0x4bdecfa9, 0xf6bb4b60, 0xbebfbc70,
   0x289b7ec6, 0xeaa127fa, 0xd4ef3085, 0x04881d05,
   0xd9d4d039, 0xe6db99e5, 0x1fa27cf8, 0xc4ac5665,
   0xf4292244, 0x432aff97, 0xab9423a7, 0xfc93a039,
   0x655b59c3, 0x8f0ccc92, 0xffeff47d, 0x85845dd1,
   0x6fa87e4f, 0xfe2ce6e0, 0xa3014314, 0x4e0811a1,
   0xf7537e82, 0xbd3af235, 0x2ad7d2bb, 0xeb86d391]

def S : List Nat :=
  [7, 12, 17, 22, 7, 12, 17, 22, 7, 12, 17, 22, 7, 12, 17, 22,
   5, 9, 14, 20, 5, 9, 14, 20, 5, 9, 14, 20, 5, 9, 14, 20,
   4, 11, 16, 23, 4, 11, 16, 23, 4, 11, 16, 23, 4, 11, 16, 23,
   6, 10, 15, 21, 6, 10, 15, 21, 6, 10, 15, 21, 6, 10, 15, 21]

def leftrot (x n : Nat) : Nat := ((x <<< n) ||| (x >>> (32 - n))) % M32

/-- Bitwise complement within 32 bits. -/
def mnot (x : Nat) : Nat := x ^^^ 0xffffffff

structure St where
  a : Nat
  b : Nat
  c : Nat
  d : Nat
  deriving Repr

def mixStep (m : List Nat) (st : St) (i : Nat) : St :=
  let fg : Nat × Nat :=
    if i < 16 then ((st.b &&& st.c) ||| (mnot st.b &&& st.d), i)
    else if i < 32 then ((st.d &&& st.b) ||| (mnot st.d &&& st.c), (5 * i + 1) % 16)
    else if i < 48 then (st.b ^^^ st.c ^^^ st.d, (3 * i + 5) % 16)
    else (st.c ^^^ (st.b ||| mnot st.d), (7 * i) % 16)
  let f := (fg.1 + st.a + K.getD i 0 + m.getD fg.2 0) % M32
  ⟨st.d, (st.b + leftrot f (S.getD i 0)) % M32, st.b, st.c⟩

def compress (st : St) (m : List Nat) : St :=
  let r := (List.range 64).foldl (mixStep m) st
  ⟨(st.a + r.a) % M32, (st.b + r.b) % M32, (st.c + r.c) % M32, (st.d + r.d) % M32⟩

def toChunksAux : Nat → List Nat → List (List Nat)
  | 0, _ => []
  | _, [] => []
  | fuel + 1, l => l.take 64 :: toChunksAux fuel (l.drop 64)

/-- Split the padded byte list into 64-byte blocks. -/
def toChunks (l : List Nat) : List (List Nat) := toChunksAux l.length l

/-- The 16 little-endian 32-bit words of one block. -/
def wordsOfChunk (chunk : List Nat) : List Nat :=
  (List.range 16).map (fun j =>
    chunk.getD (4 * j) 0 + 256 * chunk.getD (4 * j + 1) 0
      + 65536 * chunk.getD (4 * j + 2) 0 + 16777216 * chunk.getD (4 * j + 3) 0)

/-- Append `0x80`, zero bytes up to 56 mod 64, and the bit length as a
little-endian 64-bit number. -/
def pad (msg : List Nat) : List Nat :=
  let len := msg.length
  let padLen := (120 - (len + 1) % 64) % 64
  let bitlen := (8 * len) % (2 ^ 64)
  msg ++ [128] ++ List.replicate padLen 0 ++ (List.range 8).map (fun j => bitlen / 256 ^ j % 256)

def wordBytesLE (w : Nat) : List Nat :=
  [w % 256, w / 256 % 256, w / 65536 % 256, w / 16777216 % 256]

/-- The 16 digest bytes of a message given as a byte list. -/
def digest (msg : List Nat) : List Nat :=
  let chunks := toChunks (pad msg)
  let st := chunks.foldl (fun st c => compress st (wordsOfChunk c))
    ⟨0x67452301, 0xefcdab89, 0x98badcfe, 0x10325476⟩
  wordBytesLE st.a ++ wordBytesLE st.b ++ wordBytesLE st.c ++ wordBytesLE st.d

def hexDigit (n : Nat) : Char :=
  if n < 10 then Char.ofNat ('0'.toNat + n) else Char.ofNat ('a'.toNat + n - 10)

def byteHex (b : Nat) : List Char := [hexDigit (b / 16), hexDigit (b % 16)]

end MD5

/-- UTF-8 encoding of one character. -/
def utf8Bytes (c : Char) : List Nat :=
  let n := c.toNat
  if n < 128 then [n]
  else if n < 2048 then [192 + n / 64, 128 + n % 64]
  else if n < 65536 then [224 + n / 4096, 128 + n / 64 % 64, 128 + n % 64]
  else [240 + n / 262144, 128 + n / 4096 % 64, 128 + n / 64 % 64, 128 + n % 64]

/-- `md5(s).hexdigest()`. -/
def md5hex (s : String) : String :=
  String.mk (((MD5.digest ((s.data.map utf8Bytes).flatten)).map MD5.byteHex).flatten)

/-! ### The bounded query cache (`Ringbuffer` and `KRingbuffer`) -/

/-- The `while len(self) >= self.capacity: super(Ringbuffer,self).pop()` loop
of `Ringbuffer.append`; `pop` is aliased to `deque.popleft`, so the discard
happens at the front (oldest end).  The structural recursion matches the loop
whenever `capacity > 0` (asserted at construction; for `capacity <= 0` the
Python loop would pop from an empty deque). -/
def dropToCap (cap : ℤ) : List α → List α
  | [] => []
  | x :: t => if cap ≤ ((x :: t).length : ℤ) then dropToCap cap t else x :: t

/-- `Ringbuffer.append`: discard oldest entries until strictly below
capacity, then append on the right. -/
def ringAppend (cap : ℤ) (l : List α) (x : α) : List α := dropToCap cap l ++ [x]

/-- `KRingbuffer`: a ring buffer of keys plus a dict kept in sync with it.
The dict is modelled as an association list with distinct keys. -/
structure KRingbuffer (V : Type) where
  capacity : ℤ
  ring : List String
  entries : List (String × V)
  deriving Repr

/-- `dict.__setitem__`: overwrite in place or add. -/
def setEntry (l : List (String × V)) (k : String) (v : V) : List (String × V) :=
  match l with
  | [] => [(k, v)]
  | (k', v') :: t => if k' = k then (k, v) :: t else (k', v') :: setEntry t k v

/-- `KRingbuffer._prune`: delete every dict key that is no longer in the ring
buffer. -/
def KRingbuffer.prune (kb : KRingbuffer V) : KRingbuffer V :=
  { kb with entries := kb.entries.filter (fun e => kb.ring.contains e.1) }

/-- `KRingbuffer.append(k, v)`. -/
def KRingbuffer.append (kb : KRingbuffer V) (k : String) (v : V) : KRingbuffer V :=
  KRingbuffer.prune
    { kb with ring := ringAppend kb.capacity kb.ring k, entries := setEntry kb.entries k v }

/-- `KRingbuffer.clear`: a fresh empty ring buffer, then prune. -/
def KRingbuffer.clear (kb : KRingbuffer V) : KRingbuffer V :=
  KRingbuffer.prune { kb with ring := [] }

/-- Dict lookup (`self.__cache[SQL]` / `SQL in self.__cache`); a plain read,
`KRingbuffer` overrides no read operation. -/
def KRingbuffer.lookup (kb : KRingbuffer V) (k : String) : Option V :=
  kb.entries.lookup k

/-- `KRingbuffer(capacity)`: `Ringbuffer.__init__` asserts `capacity > 0`;
`none` models the `AssertionError`. -/
def KRingbuffer.create (V : Type) (capacity : ℤ) : Option (KRingbuffer V) :=
  if 0 < capacity then some ⟨capacity, [], []⟩ else none

/-! ### `SQLarray.sql` -/

/-- A modelled `numpy.recarray` result: column names plus rows. -/
structure RecArr where
  names : List String
  rows : List (List PyScalar)
  deriving DecidableEq, Repr

/-- A value stored in the query cache: the converted result of a query. -/
inductive SqlValue where
  | recarr (r : RecArr)
  | tuples (rows : List (List PyScalar))
  deriving DecidableEq, Repr

/-- The outcome of one `SQLarray.sql` call. -/
inductive SqlResult where
  | cached (v : SqlValue)
  | emptyRes
  | recarray (r : RecArr)
  | tuples (rows : List (List PyScalar))
  | typeError
  deriving DecidableEq, Repr

abbrev QueryCache := KRingbuffer SqlValue

/-- The guard of the cache-hit early return:
`if not '?' in SQL and cache and SQL in self.__cache` (on the substituted
statement). -/
def cacheHitGuard (cache : QueryCache) (SQL : String) (useCache : Bool) : Bool :=
  !SQL.data.contains '?' && useCache && (cache.lookup SQL).isSome

/-- Mutation detection:
`if c.rowcount > 0 or SQL.upper().find('DELETE') > -1`. -/
def mutationDetected (rowcount : ℤ) (SQL : String) : Bool :=
  decide (0 < rowcount) || strHasSub (pyUpper SQL) "DELETE"

/-- `SQLarray.sql(SQL, parameters, asrecarray, cache)`.  The backing SQLite
engine is the oracle `store`, returning the cursor's `rowcount`, the
`description` column names and the `fetchall()` rows of the executed
statement; `fromrecords` is the `numpy.rec.fromrecords` oracle, `none`
standing for an exception while building the recarray.  The returned pair is
the query cache after the call together with the outcome (`typeError` models
the re-raised `TypeError`; the cache mutations that already happened are kept,
as they are on the Python object). -/
def SQLarray.sql (cache : QueryCache) (selfname SQLin : String)
    (params : Option (List PyScalar)) (asrecarray useCache : Bool)
    (store : String → Option (List PyScalar) → ℤ × List String × List (List PyScalar))
    (fromrecords : List (List PyScalar) → List String → Option RecArr) :
    QueryCache × SqlResult :=
  let SQL := pyReplace SQLin "__self__" selfname
  if cacheHitGuard cache SQL useCache then
    (cache, .cached ((cache.lookup SQL).getD (.tuples [])))
  else
    let e := store SQL params
    let cache1 := if mutationDetected e.1 SQL then cache.clear else cache
    if e.2.2.isEmpty then (cache1, .emptyRes)
    else
      if asrecarray then
        match fromrecords e.2.2 e.2.1 with
        | some r => (if useCache then cache1.append SQL (.recarr r) else cache1, .recarray r)
        | none => (cache1, .typeError)
      else
        (if useCache then cache1.append SQL (.tuples e.2.2) else cache1, .tuples e.2.2)

/-! ### `SQLarray.selection` -/

/-- Case-insensitive prefix test (ASCII). -/
def ciPre (pat : String) (cs : List Char) : Bool :=
  (pat.data.map Char.toUpper).isPrefixOf (cs.map Char.toUpper)

/-- Scan for `FROM` with no intervening newline (`.` in the pattern
`SELECT.*FROM` does not match `\n`). -/
def findFromAux : List Char → Bool
  | [] => false
  | c :: rest =>
    if c = '\n' then false
    else if ciPre "FROM" (c :: rest) then true
    else findFromAux rest

/-- `re.match(r'\s*SELECT.*FROM', safe_sql, flags=re.IGNORECASE)`. -/
def isSelectFrom (s : String) : Bool :=
  let t := s.data.dropWhile isPySpace
  ciPre "SELECT" t && findFromAux (t.drop 6)

/-- The database state `selection` manipulates: the existing table names. -/
structure SelDB where
  tables : List String
  deriving DecidableEq, Repr

inductive SelErr where
  | valueError
  deriving DecidableEq, Repr

/-- `SQLarray.selection(SQL, name=..., force=...)`: keep the text up to the
first semicolon, wrap a bare WHERE clause into `SELECT * FROM __self__ WHERE`,
substitute the self alias, name the target `selection_` + md5 hex digest
unless a caller name is given, refuse names equal to `__self__` or the
parent's own name with a `ValueError`, `DROP` an existing table when `force`,
and run `CREATE TABLE ... AS <sql>` only when the name does not (or no
longer) exist(s).  Returns the updated table set, the name the returned
handle binds to, and whether the `CREATE` (the `SELECT`) was executed. -/
def SQLarray.selection (db : SelDB) (selfname SQL : String) (nameArg : Option String)
    (force : Bool) : Except SelErr (SelDB × String × Bool) :=
  let safeSql := String.mk (SQL.data.takeWhile (fun c => c ≠ ';'))
  let sql0 := if isSelectFrom safeSql then safeSql else "SELECT * FROM __self__ WHERE " ++ safeSql
  let sql1 := pyReplace sql0 "__self__" selfname
  let newname := nameArg.getD ("selection_" ++ md5hex sql1)
  if newname = "__self__" ∨ newname = selfname then .error .valueError
  else
    let st1 : SelDB × Bool :=
      if db.tables.contains newname && force then (⟨db.tables.erase newname⟩, false)
      else (db, db.tables.contains newname)
    if st1.2 then .ok (st1.1, newname, false)
    else .ok (⟨st1.1.tables ++ [newname]⟩, newname, true)

/-! ### The constructor prefix of `SQLarray.__init__` -/

inductive InitEffect where
  | openConnection
  | execSQL (s : String)
  deriving DecidableEq, Repr

inductive InitError where
  | assertionError
  | valueError
  deriving DecidableEq, Repr

/-- The prefix of `SQLarray.__init__` that the safety claim is about (the
default `connection=None` path; record loading follows the returned state and
is not needed here).  Faithful to the statement order of the source: the
query cache is built *first* (`self.__cache = KRingbuffer(cachesize)`), so a
non-positive `cachesize` raises the ring buffer's `AssertionError` before the
reserved-name check, before any connection is opened, and before any SQL is
executed.  Returns the trace of effects against the backing store together
with the outcome. -/
def SQLarray.init (name : String) (cachesize : ℤ) (isTmp : Bool) :
    List InitEffect × Except InitError QueryCache :=
  match KRingbuffer.create SqlValue cachesize with
  | none => ([], .error .assertionError)
  | some cache =>
    if (name = "__tmp_merge_table" ∧ ¬isTmp) ∨ name = "sqlarray_master" then
      ([], .error .valueError)
    else
      ([.openConnection,
        .execSQL "CREATE TABLE IF NOT EXISTS sqlarray_master (name PRIMARY KEY, value)",
        .execSQL "INSERT OR IGNORE INTO sqlarray_master (name, value) VALUES ('connection_counter', 0)"],
       .ok cache)

/-- Number of cached (query, result) pairs. -/
def KRingbuffer.size (kb : KRingbuffer V) : Nat := kb.entries.length

/-- Well-formedness of a `KRingbuffer`: positive capacity (asserted at
construction), ring within capacity, dict keys tracked by the ring, and
distinct dict keys. -/
def KRBWf (kb : KRingbuffer V) : Prop :=
  0 < kb.capacity ∧ ((kb.ring.length : ℤ) ≤ kb.capacity ∧
    ((∀ e ∈ kb.entries, e.1 ∈ kb.ring) ∧ (kb.entries.map Prod.fst).Nodup))

instance (kb : KRingbuffer V) : Decidable (KRBWf kb) := by
  unfold KRBWf
  infer_instance

/-! ### Helper lemmas about the cache -/

theorem dropToCap_of_lt (cap : ℤ) (l : List α) (h : (l.length : ℤ) < cap) :
    dropToCap cap l = l := by
  cases l with
  | nil => rfl
  | cons x t =>
    rw [dropToCap, if_neg]
    omega

theorem dropToCap_length_lt (cap : ℤ) (hcap : 0 < cap) :
    ∀ l : List α, (l.length : ℤ) ≤ cap → ((dropToCap cap l).length : ℤ) < cap
  | [], _ => by simpa [dropToCap] using hcap
  | x :: t, h => by
    by_cases hc : cap ≤ ((x :: t).length : ℤ)
    · rw [dropToCap, if_pos hc]
      exact dropToCap_length_lt cap hcap t (by simp at h ⊢; omega)
    · rw [dropToCap, if_neg hc]
      omega

theorem dropToCap_at_cap (cap : ℤ) (hcap : 0 < cap) (l : List α)
    (h : (l.length : ℤ) = cap) : dropToCap cap l = l.tail := by
  cases l with
  | nil => simp at h; omega
  | cons x t =>
    rw [dropToCap, if_pos (le_of_eq h.symm)]
    exact dropToCap_of_lt cap t (by simp at h ⊢; omega)

theorem setEntry_fst_mem (l : List (String × V)) (k : String) (v : V) :
    ∀ a ∈ (setEntry l k v).map Prod.fst, a = k ∨ a ∈ l.map Prod.fst := by
  induction l with
  | nil => simp [setEntry]
  | cons e t ih =>
    intro a ha
    rw [setEntry] at ha
    split at ha
    · rcases (by simpa using ha) with h | h
      · exact Or.inl h
      · exact Or.inr (by simp [h])
    · rcases (by simpa using ha) with h | h
      · exact Or.inr (by simp [h])
      · rcases ih a (by simpa using h) with h' | h'
        · exact Or.inl h'
        · exact Or.inr (by simp; right; simpa using h')

theorem setEntry_keys_nodup (l : List (String × V)) (k : String) (v : V)
    (h : (l.map Prod.fst).Nodup) : ((setEntry l k v).map Prod.fst).Nodup := by
  induction l with
  | nil => simp [setEntry]
  | cons e t ih =>
    rw [List.map_cons, List.nodup_cons] at h
    obtain ⟨hnot, hnd⟩ := h
    rw [setEntry]
    split
    · rename_i heq
      rw [List.map_cons, List.nodup_cons]
      exact ⟨heq ▸ hnot, hnd⟩
    · rename_i hne
      rw [List.map_cons, List.nodup_cons]
      refine ⟨?_, ih hnd⟩
      intro hmem
      rcases setEntry_fst_mem t k v e.1 hmem with h' | h'
      · exact hne h'
      · exact hnot h'

theorem KRingbuffer.entries_clear (kb : KRingbuffer V) : kb.clear.entries = [] := by
  simp [KRingbuffer.clear, KRingbuffer.prune, List.contains]

theorem KRBWf.create (V : Type) (cap : ℤ) (kb : KRingbuffer V)
    (h : KRingbuffer.create V cap = some kb) : KRBWf kb := by
  rw [KRingbuffer.create] at h
  split at h
  · rename_i hpos
    cases h
    exact ⟨hpos, by simp; omega, by simp, by simp⟩
  · cases h

theorem KRBWf.clear {kb : KRingbuffer V} (h : KRBWf kb) : KRBWf kb.clear := by
  obtain ⟨h1, h2, h3, h4⟩ := h
  refine ⟨h1, ?_, ?_, ?_⟩
  · show ((([] : List String)).length : ℤ) ≤ kb.capacity
    simp
    omega
  · intro e he
    rw [KRingbuffer.entries_clear] at he
    cases he
  · rw [KRingbuffer.entries_clear]
    simp

theorem KRBWf.append {kb : KRingbuffer V} (h : KRBWf kb) (k : String) (v : V) :
    KRBWf (kb.append k v) := by
  obtain ⟨h1, h2, h3, h4⟩ := h
  refine ⟨h1, ?_, ?_, ?_⟩
  · show ((ringAppend kb.capacity kb.ring k).length : ℤ) ≤ kb.capacity
    rw [ringAppend, List.length_append]
    have := dropToCap_length_lt kb.capacity h1 kb.ring h2
    simp only [List.length_singleton]
    push_cast
    omega
  · intro e he
    have hm := List.mem_filter.mp he
    have := hm.2
    simpa using this
  · exact List.Nodup.sublist (List.Sublist.map Prod.fst (List.filter_sublist _))
      (setEntry_keys_nodup kb.entries k v h4)

theorem KRBWf.size_le {kb : KRingbuffer V} (h : KRBWf kb) :
    (kb.size : ℤ) ≤ kb.capacity := by
  obtain ⟨h1, h2, h3, h4⟩ := h
  have hsub : (kb.entries.map Prod.fst) ⊆ kb.ring := by
    intro a ha
    obtain ⟨e, he, rfl⟩ := List.mem_map.mp ha
    exact h3 e he
  have hlen : (kb.entries.map Prod.fst).length ≤ kb.ring.length :=
    (h4.subperm hsub).length_le
  rw [List.length_map] at hlen
  calc (kb.size : ℤ) ≤ (kb.ring.length : ℤ) := by
        rw [KRingbuffer.size]
        exact_mod_cast hlen
    _ ≤ kb.capacity := h2

theorem KRingbuffer.append_ring_at_cap {kb : KRingbuffer V} (h : KRBWf kb)
    (hfull : (kb.ring.length : ℤ) = kb.capacity) (k : String) (v : V) :
    (kb.append k v).ring = kb.ring.tail ++ [k] := by
  show ringAppend kb.capacity kb.ring k = kb.ring.tail ++ [k]
  rw [ringAppend, dropToCap_at_cap kb.capacity h.1 kb.ring hfull]

theorem KRingbuffer.append_entries_of_empty (kb : KRingbuffer V) (k : String) (v : V)
    (h : kb.entries = []) : (kb.append k v).entries.all (fun e => e.1 == k) = true := by
  simp only [KRingbuffer.append, KRingbuffer.prune, h, setEntry]
  by_cases hp : ((ringAppend kb.capacity kb.ring k).contains (k, v).1) = true
  · simp [List.filter_cons, hp]
  · simp [List.filter_cons, hp]

end RecSQL

open RecSQL

set_option maxRecDepth 200000

/-! ## Claims -/

/-- C1 (code bug): contrary to the claim (and to the method's own docstring
"Queries with `?` place holders are never cached"), `SQLarray.sql` *does*
store a placeholder-containing query in the bounded query cache: only the
cache lookup is guarded by `not '?' in SQL`, the final `self.__cache.append`
is guarded by the `cache` flag alone.  Executing
`SELECT * FROM t WHERE a > ?` with parameters `(3,)` and the cache flag on
leaves an entry for that string in the cache. -/
theorem c1_placeholder_query_is_stored :
    (SQLarray.sql ⟨5, [], []⟩ "t" "SELECT * FROM t WHERE a > ?" (some [.int 3]) true true
        (fun _ _ => (0, ["a"], [[.int 1]]))
        (fun rows names => some ⟨names, rows⟩)).1.lookup "SELECT * FROM t WHERE a > ?"
      = some (.recarr ⟨["a"], [[.int 1]]⟩) := by
  decide

/-- C6: parsing the literal 3-row/3-column laureates example with the text
table parser yields tablename `laureates`, field names `name`, `age`, `year`
in order, and exactly the three records (`"A. Einstein"`, 42, 1921),
(`"P. Dirac"`, 31, 1933), (`"R. P. Feynman"`, 47, 1965), ages and years as
integers and names as strings. -/
theorem c6_laureates_roundtrip :
    Table2arrayParse Table2arrayDefaultConvert laureatesText =
      Except.ok ⟨some "laureates", ["name", "age", "year"],
        [[.scalar (.str "A. Einstein"), .scalar (.int 42), .scalar (.int 1921)],
         [.scalar (.str "P. Dirac"), .scalar (.int 31), .scalar (.int 1933)],
         [.scalar (.str "R. P. Feynman"), .scalar (.int 47), .scalar (.int 1965)]]⟩ := by
  rfl

/-- C7 (counterexample): with conversion active and the whitespace separator,
the token `"foo bar 22  boing ---"` does *not* convert to the claimed 4-tuple
`("foo", "boing", 22, None)` — the code converts every one of the five
whitespace-separated pieces. -/
theorem c7_fancy_example_not_4tuple :
    (Autoconverter.mk .fancy true .whitespace).convert "foo bar 22  boing ---" ≠
      PyVal.tuple [.str "foo", .str "boing", .int 22, .pynone] := by
  decide

/-- C8 (counterexample): `rest_table.besttype` *does* treat a token whose
first and last characters are different quote characters as a quoted string:
its regular expression `['"](?P<value>.*)["']$` accepts mixed quotes, so the
5-character token `"007'` comes back with the quotes stripped rather than
unchanged. -/
theorem c8_mixed_quotes_are_stripped :
    besttypeR "\"007'" = PyScalar.str "007" ∧
      PyScalar.str "007" ≠ PyScalar.str "\"007'" := by
  decide

/-- C9 (counterexample): the inactive `rest_table.Autoconverter` is *not* the
identity: its `active` setter binds `convert = besttype`, so the inactive
converter still performs type inference (`"42"` becomes the integer 42, not
the unchanged string `"42"`). -/
theorem c9_inactive_rest_converter_not_identity :
    (RTAutoconverter.mk false .noSplit).convert "42" = PyVal.scalar (.int 42) ∧
      PyVal.scalar (PyScalar.int 42) ≠ PyVal.scalar (.str "42") := by
  decide

/-- C2 (amended): when `SQLarray.sql` is called with `asrecarray=True` and
building the recarray from the fetched rows fails, the call raises a
`TypeError` (the `except` clause re-raises); the raw list of row tuples is
*not* returned. -/
theorem c2_amended_conversion_failure_raises
    (cache : QueryCache) (selfname SQLin : String) (params : Option (List PyScalar))
    (useCache : Bool)
    (store : String → Option (List PyScalar) → ℤ × List String × List (List PyScalar))
    (fromrecords : List (List PyScalar) → List String → Option RecArr)
    (hmiss : cacheHitGuard cache (pyReplace SQLin "__self__" selfname) useCache = false)
    (hrows : (store (pyReplace SQLin "__self__" selfname) params).2.2.isEmpty = false)
    (hconv : fromrecords (store (pyReplace SQLin "__self__" selfname) params).2.2
        (store (pyReplace SQLin "__self__" selfname) params).2.1 = none) :
    (SQLarray.sql cache selfname SQLin params true useCache store fromrecords).2
      = SqlResult.typeError ∧
    (SQLarray.sql cache selfname SQLin params true useCache store fromrecords).2
      ≠ SqlResult.tuples (store (pyReplace SQLin "__self__" selfname) params).2.2 := by
  have h : (SQLarray.sql cache selfname SQLin params true useCache store fromrecords).2
      = SqlResult.typeError := by
    simp [SQLarray.sql, hmiss, hrows, hconv]
  exact ⟨h, by simp [h]⟩

/-- C2 (counterexample, witness to the amended claim): a concrete execution
in which `numpy.rec.fromrecords` fails; the outcome is the `TypeError`, not
the fetched row tuples. -/
theorem c2_witness_typeerror_at_failed_conversion :
    (SQLarray.sql ⟨5, [], []⟩ "t" "SELECT a FROM __self__" none true true
        (fun _ _ => (0, ["a"], [[.int 1]])) (fun _ _ => none)).2 = SqlResult.typeError ∧
    (SQLarray.sql ⟨5, [], []⟩ "t" "SELECT a FROM __self__" none true true
        (fun _ _ => (0, ["a"], [[.int 1]])) (fun _ _ => none)).2
      ≠ SqlResult.tuples [[.int 1]] :=
  c2_amended_conversion_failure_raises ⟨5, [], []⟩ "t" "SELECT a FROM __self__" none true
    (fun _ _ => (0, ["a"], [[.int 1]])) (fun _ _ => none) (by decide) (by decide) (by decide)

/-- C3: on an executed `SQLarray.sql` call (a cache miss), if the cursor's
affected-row indicator is positive or the statement text contains `DELETE`
case-insensitively, the whole per-handle cache is cleared: every entry of the
resulting cache (there is at most the freshly executed statement's own) is
keyed by the executed statement, so every previously cached entry is gone. -/
theorem c3_mutation_clears_entire_cache
    (cache : QueryCache) (selfname SQLin : String) (params : Option (List PyScalar))
    (asrecarray useCache : Bool)
    (store : String → Option (List PyScalar) → ℤ × List String × List (List PyScalar))
    (fromrecords : List (List PyScalar) → List String → Option RecArr)
    (hmiss : cacheHitGuard cache (pyReplace SQLin "__self__" selfname) useCache = false)
    (hmut : mutationDetected (store (pyReplace SQLin "__self__" selfname) params).1
        (pyReplace SQLin "__self__" selfname) = true) :
    ((SQLarray.sql cache selfname SQLin params asrecarray useCache store fromrecords).1.entries).all
      (fun kv => kv.1 == pyReplace SQLin "__self__" selfname) = true := by
  simp only [SQLarray.sql, hmiss, Bool.false_eq_true, if_false, hmut, if_true]
  set SQL := pyReplace SQLin "__self__" selfname with hS
  by_cases h1 : (store SQL params).2.2.isEmpty = true
  · simp [h1, KRingbuffer.entries_clear]
  · simp only [h1, Bool.false_eq_true, if_false]
    cases asrecarray with
    | false =>
      simp only [Bool.false_eq_true, if_false]
      cases useCache with
      | false => simp [KRingbuffer.entries_clear]
      | true =>
        simp only [if_true]
        exact KRingbuffer.append_entries_of_empty _ _ _ (KRingbuffer.entries_clear cache)
    | true =>
      simp only [if_true]
      cases hf : fromrecords (store SQL params).2.2 (store SQL params).2.1 with
      | none => simp [KRingbuffer.entries_clear]
      | some r =>
        cases useCache with
        | false => simp [KRingbuffer.entries_clear]
        | true =>
          simp only [if_true]
          exact KRingbuffer.append_entries_of_empty _ _ _ (KRingbuffer.entries_clear cache)

/-- C3 (witness): a concrete `DELETE` statement against a handle with two
cached queries; afterwards every cache entry is keyed by the executed
statement (here: the cache holds nothing else). -/
theorem c3_witness_delete_clears :
    ((SQLarray.sql ⟨3, ["q1", "q2"], [("q1", .tuples [[.int 9]]), ("q2", .tuples [[.int 8]])]⟩
        "t" "DELETE FROM __self__ WHERE a = 1" none false true
        (fun _ _ => (0, [], [])) (fun rows names => some ⟨names, rows⟩)).1.entries).all
      (fun kv => kv.1 == pyReplace "DELETE FROM __self__ WHERE a = 1" "__self__" "t") = true :=
  c3_mutation_clears_entire_cache
    ⟨3, ["q1", "q2"], [("q1", .tuples [[.int 9]]), ("q2", .tuples [[.int 8]])]⟩
    "t" "DELETE FROM __self__ WHERE a = 1" none false true
    (fun _ _ => (0, [], [])) (fun rows names => some ⟨names, rows⟩) (by decide) (by decide)

/-- C7 (amended): with conversion active and the whitespace separator, the
token `"foo bar 22  boing ---"` converts to the *5-tuple*
`("foo", "bar", 22, "boing", None)` (each whitespace-separated piece
converted independently, `22` inferred as an integer, `---` mapped to None);
and in general splitting into zero pieces yields the empty string, exactly
one piece yields the single converted value unwrapped, and two or more
pieces yield the tuple of the independently converted values. -/
theorem c7_amended_fancy_conversion :
    (Autoconverter.mk .fancy true .whitespace).convert "foo bar 22  boing ---"
        = PyVal.tuple [.str "foo", .str "bar", .int 22, .str "boing", .pynone]
  ∧ (Autoconverter.mk .fancy true .whitespace).convert "foo bar"
        = PyVal.tuple [.str "foo", .str "bar"]
  ∧ (Autoconverter.mk .fancy true .whitespace).convert "solo"
        = PyVal.scalar (.str "solo")
  ∧ (∀ s : String, pyWords s = [] →
        convertFancy .whitespace s = PyVal.scalar (.str ""))
  ∧ (∀ (s p : String), pyWords s = [p] →
        convertFancy .whitespace s = PyVal.scalar (convertSinglet p))
  ∧ (∀ s : String, 2 ≤ (pyWords s).length →
        convertFancy .whitespace s = PyVal.tuple ((pyWords s).map convertSinglet)) := by
  refine ⟨by decide, by decide, by decide, ?_, ?_, ?_⟩
  · intro s h
    simp [convertFancy, pySplit, h]
  · intro s p h
    simp [convertFancy, pySplit, h]
  · intro s h
    match hw : pyWords s with
    | [] => rw [hw] at h; simp at h
    | [p] => rw [hw] at h; simp at h
    | a :: b :: t => simp [convertFancy, pySplit, hw]

/-- C7 (witness): the general dispatch facts of the amended claim applied at
concrete tokens: an all-whitespace token gives the empty string, a
single-piece token is unwrapped, a two-piece token gives a tuple. -/
theorem c7_witness_dispatch :
    convertFancy .whitespace "   " = PyVal.scalar (.str "")
  ∧ convertFancy .whitespace " solo " = PyVal.scalar (convertSinglet "solo")
  ∧ convertFancy .whitespace "ab cd" = PyVal.tuple ((pyWords "ab cd").map convertSinglet) :=
  ⟨c7_amended_fancy_conversion.2.2.2.1 "   " (by decide),
   c7_amended_fancy_conversion.2.2.2.2.1 " solo " "solo" (by decide),
   c7_amended_fancy_conversion.2.2.2.2.2 "ab cd" (by decide)⟩

/-- C9 (amended): an inactive `convert.Autoconverter` is the identity on its
input (no inference, no sentinel mapping, no splitting); the table-parser
module's own inactive `Autoconverter`, however, still applies its local
`besttype` to the input. -/
theorem c9_amended_inactive_behaviour :
    (∀ (a : Autoconverter) (x : String), a.active = false →
        a.convert x = PyVal.scalar (.str x))
  ∧ (∀ (a : RTAutoconverter) (x : String), a.active = false →
        a.convert x = PyVal.scalar (besttypeR x)) := by
  constructor
  · intro a x h
    simp [Autoconverter.convert, h]
  · intro a x h
    simp [RTAutoconverter.convert, h]

/-- C9 (witness): both halves of the amended claim applied to the token
`"42"` for concrete inactive converters. -/
theorem c9_witness_inactive :
    (Autoconverter.mk .fancy false .whitespace).convert "42" = PyVal.scalar (.str "42")
  ∧ (RTAutoconverter.mk false .whitespace).convert "42" = PyVal.scalar (besttypeR "42") :=
  ⟨c9_amended_inactive_behaviour.1 (Autoconverter.mk .fancy false .whitespace) "42" rfl,
   c9_amended_inactive_behaviour.2 (RTAutoconverter.mk false .whitespace) "42" rfl⟩

/-- C10: for every `cachesize <= 0`, the `SQLarray` constructor fails with
the ring buffer's capacity assertion as its very first step — before the
connection is opened or any table is created (the effect trace is empty) —
and consequently every successfully constructed handle has a query cache of
capacity at least 1. -/
theorem c10_cachesize_assertion :
    (∀ (name : String) (cs : ℤ) (isTmp : Bool), cs ≤ 0 →
        SQLarray.init name cs isTmp = ([], Except.error InitError.assertionError))
  ∧ (∀ (name : String) (cs : ℤ) (isTmp : Bool) (tr : List InitEffect) (cache : QueryCache),
        SQLarray.init name cs isTmp = (tr, Except.ok cache) → 1 ≤ cache.capacity) := by
  constructor
  · intro name cs isTmp h
    have h0 : ¬ (0 < cs) := by omega
    simp [SQLarray.init, KRingbuffer.create, h0]
  · intro name cs isTmp tr cache h
    by_cases h0 : 0 < cs
    · simp only [SQLarray.init, KRingbuffer.create, h0, if_true] at h
      split at h
      · simp only [Prod.mk.injEq] at h
        exact absurd h.2 (by simp)
      · simp only [Prod.mk.injEq, Except.ok.injEq] at h
        rw [← h.2]
        change (1 : ℤ) ≤ cs
        omega
    · simp [SQLarray.init, KRingbuffer.create, h0] at h

/-- C10 (witness): `cachesize = 0` fails with the assertion and an empty
effect trace; a successfully constructed handle (here `cachesize = 5`) has
cache capacity at least 1. -/
theorem c10_witness :
    SQLarray.init "t" 0 false = ([], Except.error InitError.assertionError)
  ∧ 1 ≤ (⟨5, [], []⟩ : QueryCache).capacity :=
  ⟨c10_cachesize_assertion.1 "t" 0 false (by omega),
   c10_cachesize_assertion.2 "t" 5 false
     [.openConnection,
      .execSQL "CREATE TABLE IF NOT EXISTS sqlarray_master (name PRIMARY KEY, value)",
      .execSQL "INSERT OR IGNORE INTO sqlarray_master (name, value) VALUES ('connection_counter', 0)"]
     ⟨5, [], []⟩ rfl⟩

/-- C4: the bounded query cache holds at most its fixed capacity of entries
at all times (well-formedness is established at construction and preserved by
`append` and `clear`, and implies `size ≤ capacity`); an `append` at capacity
evicts exactly the single oldest-inserted key (the ring becomes
`tail ++ [k]`, insertion-order FIFO); and a cache hit leaves the cache — and
hence the eviction order — completely unchanged (lookups never reorder, so
the cache is not an LRU). -/
theorem c4_cache_bounded_fifo_no_lru :
    (∀ (V : Type) (cap : ℤ) (kb : KRingbuffer V),
        KRingbuffer.create V cap = some kb → KRBWf kb)
  ∧ (∀ (V : Type) (kb : KRingbuffer V) (k : String) (v : V),
        KRBWf kb → KRBWf (kb.append k v))
  ∧ (∀ (V : Type) (kb : KRingbuffer V), KRBWf kb → KRBWf kb.clear)
  ∧ (∀ (V : Type) (kb : KRingbuffer V), KRBWf kb → (kb.size : ℤ) ≤ kb.capacity)
  ∧ (∀ (V : Type) (kb : KRingbuffer V) (k : String) (v : V), KRBWf kb →
        (kb.ring.length : ℤ) = kb.capacity → (kb.append k v).ring = kb.ring.tail ++ [k])
  ∧ (∀ (cache : QueryCache) (selfname SQLin : String) (params : Option (List PyScalar))
        (asrecarray useCache : Bool)
        (store : String → Option (List PyScalar) → ℤ × List String × List (List PyScalar))
        (fromrecords : List (List PyScalar) → List String → Option RecArr),
        cacheHitGuard cache (pyReplace SQLin "__self__" selfname) useCache = true →
        (SQLarray.sql cache selfname SQLin params asrecarray useCache store fromrecords).1
          = cache) :=
  ⟨fun V cap kb h => KRBWf.create V cap kb h,
   fun _ kb k v h => KRBWf.append h k v,
   fun _ kb h => KRBWf.clear h,
   fun _ kb h => KRBWf.size_le h,
   fun _ kb k v h hfull => KRingbuffer.append_ring_at_cap h hfull k v,
   fun cache selfname SQLin params asrecarray useCache store fromrecords hhit => by
     simp [SQLarray.sql, hhit]⟩

/-- C4 (witness): a cache of capacity 2 at capacity evicts its oldest key
`"a"` when `"c"` is appended, and a concrete cache hit returns the cache
state unchanged. -/
theorem c4_witness_eviction_and_hit :
    ((⟨2, ["a", "b"], [("a", (1 : ℕ)), ("b", 2)]⟩ : KRingbuffer ℕ).append "c" 3).ring
      = ["a", "b"].tail ++ ["c"]
  ∧ (SQLarray.sql ⟨3, ["Q"], [("Q", .tuples [[.int 1]])]⟩ "t" "Q" none true true
        (fun _ _ => (0, [], [])) (fun rows names => some ⟨names, rows⟩)).1
      = ⟨3, ["Q"], [("Q", .tuples [[.int 1]])]⟩ :=
  ⟨c4_cache_bounded_fifo_no_lru.2.2.2.2.1 ℕ ⟨2, ["a", "b"], [("a", 1), ("b", 2)]⟩ "c" 3
     (by decide) (by decide),
   c4_cache_bounded_fifo_no_lru.2.2.2.2.2 ⟨3, ["Q"], [("Q", .tuples [[.int 1]])]⟩ "t" "Q" none
     true true (fun _ _ => (0, [], [])) (fun rows names => some ⟨names, rows⟩) (by decide)⟩

/-- C5: `SQLarray.selection` without `force` is idempotent memoized
materialization.  If a first call (no caller-supplied name, no `force`)
succeeds, then the derived table name is `selection_` followed by the md5 hex
digest of the self-alias-substituted query text up to the first semicolon
(with a bare WHERE clause first wrapped into `SELECT * FROM __self__ WHERE`),
that name may equal neither `__self__` nor the handle's own name; a second
identical call finds the relation existing, skips the `CREATE ... AS SELECT`
(the executed flag is `false`), leaves the database unchanged and returns a
handle bound to the same relation; a call with `force=True` drops the
existing table and recreates it; and a caller-supplied name equal to
`__self__` or the parent's name raises a `ValueError`. -/
theorem c5_selection_idempotent
    (db db1 : SelDB) (selfname SQL n : String) (b : Bool)
    (h : SQLarray.selection db selfname SQL none false = Except.ok (db1, n, b)) :
    n = "selection_" ++ md5hex (pyReplace
        (if isSelectFrom (String.mk (SQL.data.takeWhile (fun c => c ≠ ';'))) = true
         then String.mk (SQL.data.takeWhile (fun c => c ≠ ';'))
         else "SELECT * FROM __self__ WHERE " ++ String.mk (SQL.data.takeWhile (fun c => c ≠ ';')))
        "__self__" selfname)
  ∧ n ≠ selfname ∧ n ≠ "__self__"
  ∧ SQLarray.selection db1 selfname SQL none false = Except.ok (db1, n, false)
  ∧ SQLarray.selection db1 selfname SQL none true
      = Except.ok (⟨db1.tables.erase n ++ [n]⟩, n, true)
  ∧ (∀ (db' : SelDB) (nm : String) (force : Bool), nm = "__self__" ∨ nm = selfname →
        SQLarray.selection db' selfname SQL (some nm) force
          = Except.error SelErr.valueError) := by
  rw [SQLarray.selection] at h
  simp only [Option.getD_none, Option.getD_some] at h
  set NM := "selection_" ++ md5hex (pyReplace
      (if isSelectFrom (String.mk (SQL.data.takeWhile (fun c => c ≠ ';'))) = true
       then String.mk (SQL.data.takeWhile (fun c => c ≠ ';'))
       else "SELECT * FROM __self__ WHERE " ++ String.mk (SQL.data.takeWhile (fun c => c ≠ ';')))
      "__self__" selfname) with hNM
  by_cases hbad : NM = "__self__" ∨ NM = selfname
  · rw [if_pos hbad] at h
    cases h
  · rw [if_neg hbad] at h
    simp only [Bool.and_false, Bool.false_eq_true, if_false] at h
    have hmem : n = NM ∧ n ∈ db1.tables := by
      by_cases hc : db.tables.contains NM = true
      · rw [if_pos hc] at h
        simp only [Except.ok.injEq, Prod.mk.injEq] at h
        refine ⟨h.2.1.symm, ?_⟩
        rw [← h.2.1, ← h.1]
        simpa using hc
      · rw [if_neg hc] at h
        simp only [Except.ok.injEq, Prod.mk.injEq] at h
        refine ⟨h.2.1.symm, ?_⟩
        rw [← h.2.1, ← h.1]
        simp
    obtain ⟨hn, hdb1mem⟩ := hmem
    subst hn
    have hbad1 : ¬ (NM = "__self__" ∨ NM = selfname) := hbad
    have hcon1 : db1.tables.contains NM = true := by
      simpa [List.contains, List.elem_eq_mem] using hdb1mem
    refine ⟨rfl, fun hh => hbad (Or.inr hh), fun hh => hbad (Or.inl hh), ?_, ?_, ?_⟩
    · rw [SQLarray.selection]
      simp only [Option.getD_none, ← hNM]
      rw [if_neg hbad1]
      simp only [Bool.and_false, Bool.false_eq_true, if_false]
      rw [if_pos hcon1]
    · rw [SQLarray.selection]
      simp only [Option.getD_none, ← hNM]
      rw [if_neg hbad1]
      simp only [hcon1, Bool.and_true, if_true, Bool.false_eq_true, if_false]
    · intro db' nm force hh
      rw [SQLarray.selection]
      simp only [Option.getD_some]
      rw [if_pos hh]

/-- C5 (witness): on a database holding only the table `data`, selecting
`a > 3` twice: the first call succeeds and materializes
`selection_ce8769b2f5e2cb25e6ff2782759ef277` (the md5 of
`SELECT * FROM data WHERE a > 3`); the second call returns the same relation
without executing the `CREATE`. -/
theorem c5_witness_second_call_skips_create :
    SQLarray.selection ⟨["data", "selection_ce8769b2f5e2cb25e6ff2782759ef277"]⟩ "data" "a > 3"
        none false
      = Except.ok (⟨["data", "selection_ce8769b2f5e2cb25e6ff2782759ef277"]⟩,
          "selection_ce8769b2f5e2cb25e6ff2782759ef277", false) :=
  (c5_selection_idempotent ⟨["data"]⟩
      ⟨["data", "selection_ce8769b2f5e2cb25e6ff2782759ef277"]⟩ "data" "a > 3"
      "selection_ce8769b2f5e2cb25e6ff2782759ef277" true (by rfl)).2.2.2.1

/-! ### Helper lemmas for the quote-handling claim -/

theorem isQuoteChar_cases {c : Char} (hc : isQuoteChar c = true) : c = '"' ∨ c = '\'' := by
  simpa [isQuoteChar] using hc

theorem parseIntCore_quote_head {c : Char} (hc : isQuoteChar c = true) (rest : List Char) :
    parseIntCore (c :: rest) = none := by
  rcases isQuoteChar_cases hc with h | h <;> subst h <;>
    simp [parseIntCore, List.all_cons, show Char.isDigit '"' = false from rfl,
      show Char.isDigit '\'' = false from rfl]

theorem parseFloatMag_quote_head {c : Char} (hc : isQuoteChar c = true) (rest : List Char) :
    parseFloatMag (c :: rest) = none := by
  rcases isQuoteChar_cases hc with h | h <;> subst h <;>
    simp [parseFloatMag, List.takeWhile_cons, List.dropWhile_cons,
      show Char.isDigit '"' = false from rfl, show Char.isDigit '\'' = false from rfl]

theorem parseFloatCore_quote_head {c : Char} (hc : isQuoteChar c = true) (rest : List Char) :
    parseFloatCore (c :: rest) = none := by
  have hm := parseFloatMag_quote_head hc rest
  rcases isQuoteChar_cases hc with h | h <;> subst h <;> simpa [parseFloatCore] using hm

theorem percentConv_quote_last {s : String} {d : Char} (hd : isQuoteChar d = true)
    (h : s.data.getLast? = some d) : percentConv s = none := by
  rcases isQuoteChar_cases hd with hh | hh <;> subst hh <;> simp [percentConv, h]

/-- C8 (amended): for tokens wrapped in a *matching* pair of quote characters
(and containing no newline), `convert.besttype` strips the outermost quotes
and returns the enclosed content verbatim as a string, regardless of numeric
appearance — in particular the 5-character token `"007"` yields the string
`007` under both `besttype` implementations.  A token whose first and last
characters are *different* quote characters is not treated as a quoted string
by `convert.besttype` (the whole token, quotes included, falls through the
`int`/`float`/percent chain and is returned unchanged), but the table-parser
module's local `besttype` *does* strip such mixed quote pairs. -/
theorem c8_amended_quote_handling :
    (∀ (s : String) (c : Char) (mid : List Char), isQuoteChar c = true →
        (pyStrip s).data = c :: mid ++ [c] → mid.all (· != '\n') = true →
        besttype s = PyScalar.str (String.mk mid))
  ∧ besttype "\"007\"" = PyScalar.str "007"
  ∧ besttypeR "\"007\"" = PyScalar.str "007"
  ∧ (∀ (s : String) (c d : Char) (mid : List Char), isQuoteChar c = true →
        isQuoteChar d = true → c ≠ d → pyStrip s = s → s.data = c :: mid ++ [d] →
        besttype s = PyScalar.str s)
  ∧ (∀ (s : String) (c d : Char) (mid : List Char), isQuoteChar c = true →
        isQuoteChar d = true → (pyStrip s).data = c :: mid ++ [d] →
        mid.all (· != '\n') = true → besttypeR s = PyScalar.str (String.mk mid)) := by
  refine ⟨?_, by decide, by decide, ?_, ?_⟩
  · intro s c mid hc hdata hmid
    have hq : quotedSame (c :: mid ++ [c]) = true := by
      simp [quotedSame, hc, List.getLast?_concat, hmid]
    simp only [besttype, hdata, hq, if_true]
    simp
  · intro s c d mid hc hd hcd hss hdata
    have hq : quotedSame (c :: mid ++ [d]) = false := by
      simp [quotedSame, List.getLast?_concat]
      intro _ hdc
      exact absurd hdc.symm hcd
    have hint : pyInt (pyStrip s) = none := by
      rw [hss, pyInt, hss, hdata]
      exact parseIntCore_quote_head hc (mid ++ [d])
    have hfl : pyFloat (pyStrip s) = none := by
      rw [hss, pyFloat, hss, hdata]
      exact parseFloatCore_quote_head hc (mid ++ [d])
    have hpc : percentConv (pyStrip s) = none := by
      rw [hss]
      refine percentConv_quote_last hd ?_
      rw [hdata]
      exact List.getLast?_concat (c :: mid)
    simp only [besttype, hss, hdata, hq, Bool.false_eq_true, if_false]
    rw [← hss, hint, hfl, hpc, hss]
  · intro s c d mid hc hd hdata hmid
    have hq : quotedAny (c :: mid ++ [d]) = true := by
      simp [quotedAny, hc, hd, List.getLast?_concat, hmid]
    simp only [besttypeR, hdata, hq, if_true]
    simp

/-- C8 (witness): the quote-stripping branch at `'x'`, and the divergent
treatments of the mixed-quote token `"007'`: `convert.besttype` returns it
unchanged, `rest_table.besttype` strips the mixed quotes. -/
theorem c8_witness_quotes :
    besttype "'x'" = PyScalar.str (String.mk ['x'])
  ∧ besttype "\"007'" = PyScalar.str "\"007'"
  ∧ besttypeR "\"007'" = PyScalar.str (String.mk ['0', '0', '7']) :=
  ⟨c8_amended_quote_handling.1 "'x'" '\'' ['x'] (by decide) (by decide) (by decide),
   c8_amended_quote_handling.2.2.2.1 "\"007'" '"' '\'' ['0', '0', '7'] (by decide) (by decide)
     (by decide) (by decide) (by decide),
   c8_amended_quote_handling.2.2.2.2 "\"007'" '"' '\'' ['0', '0', '7'] (by decide) (by decide)
     (by decide) (by decide)⟩

/-- C2 (counterexample): a concrete `SQLarray.sql` call with `asrecarray=True`
whose recarray construction fails: the outcome is the raised `TypeError`, not
the raw list of row tuples the claim promises. -/
theorem c2_counterexample_no_tuple_fallback :
    (SQLarray.sql ⟨5, [], []⟩ "t" "SELECT b FROM __self__" none true true
        (fun _ _ => (0, ["b"], [[.int 2], [.str "x"]])) (fun _ _ => none)).2
      = SqlResult.typeError ∧
    (SQLarray.sql ⟨5, [], []⟩ "t" "SELECT b FROM __self__" none true true
        (fun _ _ => (0, ["b"], [[.int 2], [.str "x"]])) (fun _ _ => none)).2
      ≠ SqlResult.tuples [[.int 2], [.str "x"]] := by
  decide
